import Mathlib

/-!
Shallow embedding of `src/app.py` (an entity-enrichment pipeline:
query rendering, web search, result extraction, LLM-based structured
extraction, per-row orchestration, and a summary projection).

External effects (HTTP, HTML parsing, the completion service, JSON
parsing of its reply, and the clock) are modelled as oracle fields of an
`Env` record; the program text of `app.py` is translated into total
Lean functions over those oracles.  A Python function that catches all
exceptions internally is a total function here; a Python exception that
escapes a function is `Except.error`.
-/

set_option autoImplicit false

namespace WebAgent

/-- Definition of JSON-like values, used for the Python dicts the program builds
(`json.loads` output, result records). -/
inductive JsonVal where
  | null : JsonVal
  | str : String → JsonVal
  | num : Int → JsonVal
  | bool : Bool → JsonVal
  | arr : List JsonVal → JsonVal
  | obj : List (String × JsonVal) → JsonVal

/-- Definition of a result record (a Python dict with string keys). -/
abbrev Record := List (String × JsonVal)

/-- Definition of an input table row: the cells of one row, keyed by column name
(`row[query_col]` is an association-list lookup). -/
abbrev Row := List (String × String)

/-- Definition of an outbound HTTP GET request (URL plus headers), as built by
`requests.get(url, headers=self.headers)` in `search_web`. -/
structure HttpRequest where
  url : String
  headers : List (String × String)
deriving DecidableEq

/-- Definition of a chat-completion request, as built by
`self.client.chat.completions.create(...)` in `extract_info_with_llm`:
a model name, role-tagged messages, temperature and max_tokens. -/
structure ChatRequest where
  model : String
  messages : List (String × String)
  temperature : Nat
  max_tokens : Nat

/-- Definition of one parsed `.result__body` container of the search results page:
an optional `.result__title` text and an optional `.result__snippet` text
(`select_one` returns `None` when the sub-element is missing). -/
structure ResultBody where
  title : Option String
  snippet : Option String

/-- Definition of the external world the program calls into.  `httpGet` is
`requests.get` (transport failure = `Except.error`); `parseHtml` is
`BeautifulSoup(...).select('.result__body')` (total: malformed markup still
yields a soup, possibly with no matching containers); `completion` is the
Groq chat call (API/rate-limit failure = `Except.error`); `parseJson` is
`json.loads` (`JSONDecodeError` = `Except.error`); `timestamp` is
`time.strftime` at the i-th row. -/
structure Env where
  httpGet : HttpRequest → Except String String
  parseHtml : String → List ResultBody
  completion : ChatRequest → Except String String
  parseJson : String → Except String JsonVal
  timestamp : Nat → String

/-- Definition of the fixed search endpoint base, from
`url = f'https://html.duckduckgo.com/html/?q={query}'` (app.py line 27). -/
def searchBase : String := "https://html.duckduckgo.com/html/?q="

/-- Definition of the User-Agent header value set in `__init__` (app.py lines 18-20). -/
def userAgentString : String :=
  "Mozilla/5.0 (Windows NT 10.0; Win64; x64) AppleWebKit/537.36 (KHTML, like Gecko) Chrome/91.0.4472.124 Safari/537.36"

/-- Definition of the HTTP request `search_web` issues: the f-string URL (the
query appended verbatim, no escaping) plus `self.headers`. -/
def searchRequest (query : String) : HttpRequest :=
  { url := searchBase ++ query, headers := [("User-Agent", userAgentString)] }

/-- Definition of the text built for one hit:
`f"Title: {title.get_text()}\nSnippet: {snippet.get_text()}\n"` (app.py line 36). -/
def hitText (t s : String) : String :=
  "Title: " ++ t ++ "\nSnippet: " ++ s ++ "\n"

/-- Definition of the result-extraction loop of `search_web` (app.py lines 31-37):
take the first `num_results` containers, keep those with both a title and a
snippet, and format each. -/
def extractHits (bodies : List ResultBody) (num_results : Nat) : List String :=
  (bodies.take num_results).filterMap fun b =>
    match b.title, b.snippet with
    | some t, some s => some (hitText t s)
    | _, _ => none

/-- Definition of `AIWebSearchAgent.search_web` (app.py lines 22-40): issue the GET,
parse, extract up to `num_results` hits and join them with newlines; any
exception inside the `try` is caught and rendered as `"Search error: ..."`. -/
def search_web (env : Env) (query : String) (num_results : Nat := 3) : String :=
  match env.httpGet (searchRequest query) with
  | Except.error e => "Search error: " ++ e
  | Except.ok text =>
    String.intercalate "\n" (extractHits (env.parseHtml text) num_results)

/-- Definition of the user prompt f-string of `extract_info_with_llm`
(app.py lines 46-63); `\x7b\x7b`/`\x7d\x7d` in the Python source are literal braces. -/
def promptFor (query search_results : String) : String :=
  "\n        ### Context\n        Query: " ++ query ++
  "\n        Search Results: " ++ search_results ++
  "\n\n        ### Task\n        Analyze the search results and extract relevant information that answers the query.\n        Provide a response in JSON format with the following structure:\n        \x7b\n            \"extracted_info\": \"main findings or relevant information\",\n            \"key_points\": [\"list\", \"of\", \"important\", \"points\"],\n            \"source_quality\": \"assessment of source reliability (high/medium/low)\",\n            \"confidence\": \"confidence in findings (high/medium/low)\",\n            \"additional_notes\": \"any caveats or important context\"\n        \x7d\n\n        The JSON must be valid and properly formatted.\n        "

/-- Definition of the system message content (app.py line 69). -/
def systemMessage : String :=
  "You are a precise data extraction assistant. Always provide responses in valid JSON format."

/-- Definition of the completion request built in `extract_info_with_llm`
(app.py lines 66-74). -/
def chatRequestFor (query search_results : String) : ChatRequest :=
  { model := "mixtral-8x7b-32768",
    messages := [("system", systemMessage), ("user", promptFor query search_results)],
    temperature := 0,
    max_tokens := 1000 }

/-- Definition of the sentinel dict returned by the `except` branch of
`extract_info_with_llm` (app.py lines 77-84). -/
def mkSentinel (e : String) : JsonVal :=
  JsonVal.obj
    [("error", JsonVal.str ("LLM processing error: " ++ e)),
     ("extracted_info", JsonVal.null),
     ("key_points", JsonVal.arr []),
     ("source_quality", JsonVal.str "error"),
     ("confidence", JsonVal.str "none"),
     ("additional_notes", JsonVal.str "Failed to process with LLM")]

/-- Definition of `AIWebSearchAgent.extract_info_with_llm` (app.py lines 42-84):
call the completion endpoint, `json.loads` the content and return the parsed
value unchanged; any exception (API failure or JSON decode failure) is caught
and becomes the sentinel dict. -/
def extract_info_with_llm (env : Env) (query search_results : String) : JsonVal :=
  match env.completion (chatRequestFor query search_results) with
  | Except.error e => mkSentinel e
  | Except.ok content =>
    match env.parseJson content with
    | Except.error e => mkSentinel e
    | Except.ok v => v

/-- Definition of the opening-brace character (written by code point to keep
brace characters out of the source text). -/
def lbr : Char := Char.ofNat 123

/-- Definition of the closing-brace character. -/
def rbr : Char := Char.ofNat 125

/-- Definition of replacement-field resolution for
`template.format(entity=entity)`: the named field `entity` substitutes the
keyword argument; an empty or numeric field is a positional reference
(IndexError: no positional arguments were passed); any other name is a
KeyError.  Unused keyword arguments are ignored by `str.format`. -/
def substField (entity name : String) : Except String String :=
  if name = "entity" then Except.ok entity
  else if name == "" || name.data.all Char.isDigit then
    Except.error "IndexError: replacement index out of range"
  else Except.error ("KeyError: " ++ name)

/-- Definition of the scan of Python `str.format` over the template characters:
doubled braces are literals, text between single braces is a replacement
field, an unmatched single brace is a ValueError.  The second argument is
`none` in literal mode and `some acc` (reversed field characters) inside a
replacement field.  Modelled fragment: bare field names only — format specs,
conversions and attribute/index access are not modelled, so templates using
them fail here although Python can accept them; accordingly no theorem
below asserts universally WHICH templates fail, only how the success cases
render and that specific concrete templates behave as computed. -/
def fmtScan (entity : String) : List Char → Option (List Char) → Except String String
  | [], none => Except.ok ""
  | [], some _ => Except.error "ValueError: expected closing brace before end of string"
  | c :: rest, some acc =>
    if c = rbr then
      match substField entity (String.mk acc.reverse) with
      | Except.error e => Except.error e
      | Except.ok repl =>
        match fmtScan entity rest none with
        | Except.error e => Except.error e
        | Except.ok s => Except.ok (repl ++ s)
    else fmtScan entity rest (some (c :: acc))
  | [c], none =>
    if c = lbr then
      Except.error "ValueError: single opening brace encountered in format string"
    else if c = rbr then
      Except.error "ValueError: single closing brace encountered in format string"
    else Except.ok (String.mk [c])
  | c1 :: c2 :: rest, none =>
    if c1 = lbr then
      (if c2 = lbr then
        match fmtScan entity rest none with
        | Except.error e => Except.error e
        | Except.ok s => Except.ok (String.mk [lbr] ++ s)
      else fmtScan entity (c2 :: rest) (some []))
    else if c1 = rbr then
      (if c2 = rbr then
        match fmtScan entity rest none with
        | Except.error e => Except.error e
        | Except.ok s => Except.ok (String.mk [rbr] ++ s)
      else Except.error "ValueError: single closing brace encountered in format string")
    else
      match fmtScan entity (c2 :: rest) none with
      | Except.error e => Except.error e
      | Except.ok s => Except.ok (String.mk [c1] ++ s)

/-- Definition of `template.format(entity=entity)` (app.py line 100): Python
`str.format` with the single keyword argument `entity`.  An escaping
exception is `Except.error`. -/
def pyFormat (template entity : String) : Except String String :=
  fmtScan entity template.data none

/-- Definition of a character that is not a brace — a template of such
characters contains no replacement field and no brace escape, the fragment
on which `str.format` is the identity. -/
def noBrace (c : Char) : Bool :=
  (c != lbr) && (c != rbr)

/-- Definition of the body of the per-row `try` block of `process_data`
(app.py lines 107-120): search, extract, and build the success record.  Both
called functions catch their exceptions internally, so the body is built from
total functions and always returns `Except.ok`. -/
def rowBody (env : Env) (i : Nat) (entity q : String) : Except String Record :=
  let search_results := search_web env q 3
  let extracted := extract_info_with_llm env q search_results
  Except.ok
    [("entity", JsonVal.str entity),
     ("search_query", JsonVal.str q),
     ("analysis", extracted),
     ("timestamp", JsonVal.str (env.timestamp i))]

/-- Definition of one iteration's appended record: the `try` result, or — on an
exception escaping the body — the `except` branch's error record
(app.py lines 122-127). -/
def rowResult (env : Env) (i : Nat) (entity q : String) : Record :=
  match rowBody env i entity q with
  | Except.ok r => r
  | Except.error e =>
    [("entity", JsonVal.str entity),
     ("error", JsonVal.str e),
     ("timestamp", JsonVal.str (env.timestamp i))]

/-- Definition of the row loop of `process_data` (app.py lines 98-130), indexed by
the running row position.  `row[query_col]` (line 99) and
`template.format(entity=entity)` (line 100) run OUTSIDE the per-row `try`,
so their exceptions escape `process_data` (modelled as a top-level
`Except.error`).  Progress display and `time.sleep` are pure side effects
with no influence on the returned data and are not modelled. -/
def processRows (env : Env) (queryCol template : String) : Nat → List Row → Except String (List Record)
  | _, [] => Except.ok []
  | i, row :: rest =>
    match row.lookup queryCol with
    | none => Except.error ("KeyError: " ++ queryCol)
    | some entity =>
      match pyFormat template entity with
      | Except.error e => Except.error e
      | Except.ok q =>
        match processRows env queryCol template (i + 1) rest with
        | Except.error e => Except.error e
        | Except.ok rs => Except.ok (rowResult env i entity q :: rs)

/-- Definition of `AIWebSearchAgent.process_data` (app.py lines 86-134). -/
def process_data (env : Env) (data : List Row) (queryCol template : String) : Except String (List Record) :=
  processRows env queryCol template 0 data

/-- Definition of key lookup on a JSON value: the keys of an object, nothing on
any other shape. -/
def jsonLookup : JsonVal → String → Option JsonVal
  | JsonVal.obj fields, k => fields.lookup k
  | _, _ => none

/-- Definition of Python `dict.get(k, default)` on an object's fields. -/
def dictGet (fields : List (String × JsonVal)) (k : String) (default : JsonVal) : JsonVal :=
  match fields.lookup k with
  | some v => v
  | none => default

/-- Definition of one iteration of the summary loop of `display_results`
(app.py lines 148-155): a record without `"analysis"` is skipped
(`Except.ok none`); otherwise `r["entity"]` is looked up (KeyError escapes if
absent) and `r["analysis"].get(...)` is called (AttributeError escapes if the
analysis is not a dict), producing the four-column row with `"N/A"` defaults. -/
def summaryRow (r : Record) : Except String (Option (List (String × JsonVal)))  :=
  match r.lookup "analysis" with
  | none => Except.ok none
  | some a =>
    match r.lookup "entity" with
    | none => Except.error "KeyError: entity"
    | some ev =>
      match a with
      | JsonVal.obj fields =>
        Except.ok (some
          [("Entity", ev),
           ("Main Findings", dictGet fields "extracted_info" (JsonVal.str "N/A")),
           ("Confidence", dictGet fields "confidence" (JsonVal.str "N/A")),
           ("Source Quality", dictGet fields "source_quality" (JsonVal.str "N/A"))])
      | _ => Except.error "AttributeError: analysis value has no get method"

/-- Definition of the summary-table construction of `display_results`
(app.py lines 147-155): fold `summaryRow` over the records, collecting the
emitted rows in order; an escaping exception aborts the projection. -/
def summaryRowsAux : List Record → Except String (List (List (String × JsonVal)))
  | [] => Except.ok []
  | r :: rest =>
    match summaryRow r with
    | Except.error e => Except.error e
    | Except.ok none => summaryRowsAux rest
    | Except.ok (some row) =>
      match summaryRowsAux rest with
      | Except.error e => Except.error e
      | Except.ok rows => Except.ok (row :: rows)

/-- Modelled from the spec: an RFC 3986 unreserved character, kept verbatim by
percent-encoding. -/
def isUnreserved (c : Char) : Bool :=
  c.isAlphanum || c = '-' || c = '.' || c = '_' || c = '~'

/-- Modelled from the spec: an uppercase hexadecimal digit character. -/
def hexDigitChar (n : Nat) : Char :=
  if n < 10 then Char.ofNat (48 + n) else Char.ofNat (55 + n)

/-- Modelled from the spec: the UTF-8 bytes of a code point. -/
def utf8Bytes (n : Nat) : List Nat :=
  if n < 128 then [n]
  else if n < 2048 then [192 + n / 64, 128 + n % 64]
  else if n < 65536 then [224 + n / 4096, 128 + (n / 64) % 64, 128 + n % 64]
  else [240 + n / 262144, 128 + (n / 4096) % 64, 128 + (n / 64) % 64, 128 + n % 64]

/-- Modelled from the spec: percent-encoding of one character (unreserved
characters kept, every other character's UTF-8 bytes written as %XX). -/
def percentEncodeChar (c : Char) : String :=
  if isUnreserved c then String.mk [c]
  else String.mk ((utf8Bytes c.toNat).flatMap fun b => ['%', hexDigitChar (b / 16), hexDigitChar (b % 16)])

/-- Modelled from the spec: percent-encoding ("URL-escaping") of a string. -/
def percentEncode (s : String) : String :=
  String.mk (s.data.flatMap fun c => (percentEncodeChar c).data)

/-- Modelled from the spec: the request URL the spec describes for the search
step — "the fixed base plus the percent-encoded query".  Compared below with
the URL the source actually builds. -/
def searchUrlSpec (query : String) : String :=
  searchBase ++ percentEncode query

/-- Definition of the check that a JSON value is an object with the given key. -/
def jsonHasKey (v : JsonVal) (k : String) : Bool :=
  (jsonLookup v k).isSome

/-- Definition of the check that an optional JSON value is JSON null. -/
def isNullVal : Option JsonVal → Bool
  | some JsonVal.null => true
  | _ => false

/-- Definition of the check that an optional JSON value is the empty JSON array. -/
def isEmptyArrVal : Option JsonVal → Bool
  | some (JsonVal.arr []) => true
  | _ => false

/-- Definition of the check that an optional JSON value is the given JSON string. -/
def isStrVal (s : String) : Option JsonVal → Bool
  | some (JsonVal.str t) => s == t
  | _ => false

/-- Definition of the first shape of the spec's ExtractionResult invariant: all
five schema fields present and no `error` field. -/
def isFullShape (v : JsonVal) : Bool :=
  jsonHasKey v "extracted_info" && jsonHasKey v "key_points" &&
  jsonHasKey v "source_quality" && jsonHasKey v "confidence" &&
  jsonHasKey v "additional_notes" && !(jsonHasKey v "error")

/-- Definition of the second shape of the spec's ExtractionResult invariant: the
error sentinel (`error` set, `extracted_info` null, `key_points` empty,
`source_quality` "error", `confidence` "none"). -/
def isErrorSentinelShape (v : JsonVal) : Bool :=
  jsonHasKey v "error" && isNullVal (jsonLookup v "extracted_info") &&
  isEmptyArrVal (jsonLookup v "key_points") &&
  isStrVal "error" (jsonLookup v "source_quality") &&
  isStrVal "none" (jsonLookup v "confidence")

/-- Definition of the check that a result record carries an `analysis` key. -/
def recHasAnalysis (r : Record) : Bool :=
  (r.lookup "analysis").isSome

/-- Definition of the check that a JSON value is an object (a Python dict). -/
def isObjVal : JsonVal → Bool
  | JsonVal.obj _ => true
  | _ => false

/-- Definition of the well-formedness condition of records reaching the summary
view: whenever `analysis` is present, the record has an `entity` cell and the
analysis is a dict (exactly the cases in which the summary loop cannot raise). -/
def goodRec (r : Record) : Bool :=
  match r.lookup "analysis" with
  | none => true
  | some a => (r.lookup "entity").isSome && isObjVal a

/-- Definition of the expected summary projection of one record, for comparison
with the loop in `display_results`: a record with an `analysis` dict maps to
the four-column row with "N/A" defaults, a record without `analysis` to
nothing. -/
def expectedSummaryRow (r : Record) : Option (List (String × JsonVal)) :=
  match r.lookup "analysis", r.lookup "entity" with
  | some (JsonVal.obj fields), some ev =>
    some
      [("Entity", ev),
       ("Main Findings", dictGet fields "extracted_info" (JsonVal.str "N/A")),
       ("Confidence", dictGet fields "confidence" (JsonVal.str "N/A")),
       ("Source Quality", dictGet fields "source_quality" (JsonVal.str "N/A"))]
  | _, _ => none

/-- Definition of the check that one input row both resolves its entity cell and
renders the template without an exception. -/
def rowRenders (queryCol template : String) (row : Row) : Bool :=
  match row.lookup queryCol with
  | none => false
  | some entity =>
    match pyFormat template entity with
    | Except.ok _ => true
    | Except.error _ => false

/-- Definition of the observable shape of a result record: whether it has an
`analysis` key and whether it has an `error` key. -/
def rowShape (r : Record) : Bool × Bool :=
  ((r.lookup "analysis").isSome, (r.lookup "error").isSome)

/-- Definition of the record shapes of an orchestrator outcome. -/
def shapesOf (res : Except String (List Record)) : Except String (List (Bool × Bool)) :=
  res.map (List.map rowShape)

/-- Definition of a concrete environment in which every external call fails:
HTTP transport down, search page parses to no containers, the completion
service down, JSON never parses, a fixed clock. -/
def envFail : Env :=
  { httpGet := fun _ => Except.error "offline",
    parseHtml := fun _ => [],
    completion := fun _ => Except.error "offline",
    parseJson := fun _ => Except.error "badjson",
    timestamp := fun _ => "ts" }

/-- Definition of a JSON text whose parse is an object carrying only one of the
five schema fields. -/
def halfJsonText : String := "\x7b\"extracted_info\": \"x\"\x7d"

/-- Definition of a concrete environment whose completion call succeeds with a
partial JSON object (valid JSON, only one schema field). -/
def envHalf : Env :=
  { httpGet := fun _ => Except.error "offline",
    parseHtml := fun _ => [],
    completion := fun _ => Except.ok halfJsonText,
    parseJson := fun s =>
      if s = halfJsonText then Except.ok (JsonVal.obj [("extracted_info", JsonVal.str "x")])
      else Except.error "badjson",
    timestamp := fun _ => "ts" }

/-- Definition of the single-row input table used by the concrete witnesses. -/
def data1 : List Row := [[("name", "A")]]

/-- Definition of the record list `process_data envFail data1 "name" "q"` reduces to. -/
def recs1 : List Record :=
  [[("entity", JsonVal.str "A"),
    ("search_query", JsonVal.str "q"),
    ("analysis", mkSentinel "offline"),
    ("timestamp", JsonVal.str "ts")]]

/-- Definition of the check that an orchestrator outcome is a returned value
rather than an escaping exception. -/
def isOkResult : Except String (List Record) → Bool
  | Except.ok _ => true
  | Except.error _ => false

/-- Definition of a mixed result list: one success record whose analysis has only
one schema field, and one row-level error record. -/
def resultsMix : List Record :=
  [[("entity", JsonVal.str "A"),
    ("search_query", JsonVal.str "q"),
    ("analysis", JsonVal.obj [("extracted_info", JsonVal.str "f")]),
    ("timestamp", JsonVal.str "ts")],
   [("entity", JsonVal.str "B"), ("error", JsonVal.str "boom"),
    ("timestamp", JsonVal.str "ts")]]

/-! ## Helper lemmas -/

theorem rowResult_eq (env : Env) (i : Nat) (entity q : String) :
    rowResult env i entity q =
      [("entity", JsonVal.str entity),
       ("search_query", JsonVal.str q),
       ("analysis", extract_info_with_llm env q (search_web env q 3)),
       ("timestamp", JsonVal.str (env.timestamp i))] := rfl

theorem rowResult_lookup_entity (env : Env) (i : Nat) (entity q : String) :
    (rowResult env i entity q).lookup "entity" = some (JsonVal.str entity) := rfl

theorem rowResult_lookup_query (env : Env) (i : Nat) (entity q : String) :
    (rowResult env i entity q).lookup "search_query" = some (JsonVal.str q) := rfl

theorem rowResult_lookup_analysis (env : Env) (i : Nat) (entity q : String) :
    (rowResult env i entity q).lookup "analysis" =
      some (extract_info_with_llm env q (search_web env q 3)) := rfl

theorem rowResult_lookup_timestamp (env : Env) (i : Nat) (entity q : String) :
    (rowResult env i entity q).lookup "timestamp" =
      some (JsonVal.str (env.timestamp i)) := rfl

theorem rowResult_lookup_error (env : Env) (i : Nat) (entity q : String) :
    (rowResult env i entity q).lookup "error" = none := rfl

theorem processRows_spec (env : Env) (qc t : String) (data : List Row) :
    ∀ (i : Nat) (results : List Record),
      processRows env qc t i data = Except.ok results →
      results.length = data.length ∧
      ∀ j (hj : j < data.length) (hj' : j < results.length),
        ∃ entity q, (data.get ⟨j, hj⟩).lookup qc = some entity ∧
          pyFormat t entity = Except.ok q ∧
          results.get ⟨j, hj'⟩ = rowResult env (i + j) entity q := by
  induction data with
  | nil =>
    intro i results h
    simp only [processRows, Except.ok.injEq] at h
    subst h
    exact ⟨rfl, by intro j hj; exact absurd hj (Nat.not_lt_zero j)⟩
  | cons row rest ih =>
    intro i results h
    simp only [processRows] at h
    split at h
    · exact absurd h (by simp)
    · rename_i entity hl
      split at h
      · exact absurd h (by simp)
      · rename_i q hf
        split at h
        · exact absurd h (by simp)
        · rename_i rs hr
          simp only [Except.ok.injEq] at h
          subst h
          obtain ⟨hlen, hidx⟩ := ih (i + 1) rs hr
          refine ⟨by simp [hlen], ?_⟩
          intro j hj hj'
          cases j with
          | zero =>
            refine ⟨entity, q, hl, hf, ?_⟩
            show rowResult env i entity q = rowResult env (i + 0) entity q
            rfl
          | succ j' =>
            have hj2 : j' < rest.length := by simpa using hj
            have hj2' : j' < rs.length := by simpa using hj'
            obtain ⟨e2, q2, he2, hq2, hr2⟩ := hidx j' hj2 hj2'
            refine ⟨e2, q2, he2, hq2, ?_⟩
            have : i + 1 + j' = i + (j' + 1) := by omega
            rw [← this]
            exact hr2

theorem processRows_ok_of_renders (env : Env) (qc t : String) (data : List Row) :
    ∀ (i : Nat), data.all (rowRenders qc t) = true →
      ∃ results, processRows env qc t i data = Except.ok results := by
  induction data with
  | nil => intro i _; exact ⟨[], rfl⟩
  | cons row rest ih =>
    intro i h
    rw [List.all_cons, Bool.and_eq_true] at h
    obtain ⟨h1, h2⟩ := h
    unfold rowRenders at h1
    split at h1
    · exact absurd h1 (by simp)
    · rename_i entity hl
      split at h1
      · rename_i q hf
        obtain ⟨rs, hrs⟩ := ih (i + 1) h2
        exact ⟨rowResult env i entity q :: rs, by simp [processRows, hl, hf, hrs]⟩
      · exact absurd h1 (by simp)

theorem searchRequest_inj (q q' : String) (h : searchRequest q = searchRequest q') :
    q = q' := by
  have hu : searchBase ++ q = searchBase ++ q' := congrArg HttpRequest.url h
  have hd : searchBase.data ++ q.data = searchBase.data ++ q'.data := by
    have := congrArg String.data hu
    simpa [String.data_append] using this
  have : q.data = q'.data := List.append_cancel_left hd
  cases q; cases q'; exact congrArg String.mk this

theorem percentEncodeList_id (l : List Char) (h : l.all isUnreserved = true) :
    (l.flatMap fun c => (percentEncodeChar c).data) = l := by
  induction l with
  | nil => rfl
  | cons c cs ih =>
    rw [List.all_cons, Bool.and_eq_true] at h
    obtain ⟨h1, h2⟩ := h
    have hc : percentEncodeChar c = String.mk [c] := by
      unfold percentEncodeChar
      rw [if_pos h1]
    simp only [List.flatMap_cons]
    rw [hc, ih h2]
    rfl

theorem percentEncode_eq_self (s : String) (h : s.data.all isUnreserved = true) :
    percentEncode s = s := by
  unfold percentEncode
  rw [percentEncodeList_id s.data h]

theorem isObjVal_eq (a : JsonVal) (h : isObjVal a = true) :
    ∃ fields, a = JsonVal.obj fields := by
  cases a <;> first
    | exact ⟨_, rfl⟩
    | simp [isObjVal] at h

theorem fmtScan_no_braces (entity : String) :
    ∀ l : List Char, l.all noBrace = true →
      fmtScan entity l none = Except.ok (String.mk l) := by
  intro l
  induction l with
  | nil => intro _; rfl
  | cons c cs ih =>
    intro h
    rw [List.all_cons, Bool.and_eq_true] at h
    obtain ⟨hc, hcs⟩ := h
    rw [noBrace, Bool.and_eq_true, bne_iff_ne, bne_iff_ne] at hc
    obtain ⟨hc1, hc2⟩ := hc
    cases cs with
    | nil =>
      simp only [fmtScan]
      rw [if_neg hc1, if_neg hc2]
    | cons c2 cs2 =>
      simp only [fmtScan]
      rw [if_neg hc1, if_neg hc2, ih hcs]
      rfl


/-! ## Claim theorems -/

/-- C1: whenever `process_data` returns a result sequence, its length equals the
number of input rows, and the i-th record's `entity` is the i-th input row's
entity cell — input order is preserved. -/
theorem process_data_length_and_order (env : Env) (data : List Row) (qc t : String)
    (results : List Record) (h : process_data env data qc t = Except.ok results) :
    results.length = data.length ∧
    ∀ j (hj : j < data.length) (hj' : j < results.length),
      (results.get ⟨j, hj'⟩).lookup "entity" =
        ((data.get ⟨j, hj⟩).lookup qc).map JsonVal.str := by
  obtain ⟨hlen, hidx⟩ := processRows_spec env qc t data 0 results h
  refine ⟨hlen, ?_⟩
  intro j hj hj'
  obtain ⟨entity, q, he, hq, hr⟩ := hidx j hj hj'
  rw [hr, he, rowResult_lookup_entity]
  rfl

/-- C1 witness: a concrete one-row run returns exactly one record, in order. -/
theorem process_data_length_and_order_witness :
    process_data envFail data1 "name" "q" = Except.ok recs1 ∧
    recs1.length = data1.length :=
  ⟨rfl, (process_data_length_and_order envFail data1 "name" "q" recs1 rfl).1⟩

/-- C2 counterexample: a query-rendering exception is NOT caught at the row
boundary.  With template "News about {other}" (a KeyError inside
`template.format`, which runs outside the per-row try), `process_data` aborts
with the exception instead of recording an error result and continuing. -/
theorem render_error_aborts_batch :
    process_data envFail [[("name", "Acme")]] "name" "News about \x7bother\x7d" =
      Except.error "KeyError: other" ∧
    isOkResult (process_data envFail [[("name", "Acme")]] "name" "News about \x7bother\x7d") =
      false :=
  ⟨rfl, rfl⟩

/-- C2 amended: exceptions of the web-search and LLM-extraction steps are caught
inside those components (not at the row boundary) and converted into values,
so — for ANY environment, including ones whose search and completion calls
always fail — once every row renders its query, the batch completes with one
record per row, each carrying `analysis` and `timestamp` and no `error`
field.  Only query rendering (which runs outside the per-row try) can abort
the batch. -/
theorem component_failures_isolated (env : Env) (data : List Row) (qc t : String)
    (h : data.all (rowRenders qc t) = true) :
    ∃ results, process_data env data qc t = Except.ok results ∧
      results.length = data.length ∧
      ∀ r ∈ results, r.lookup "error" = none ∧ (r.lookup "analysis").isSome = true ∧
        (r.lookup "timestamp").isSome = true := by
  obtain ⟨results, hres⟩ := processRows_ok_of_renders env qc t data 0 h
  obtain ⟨hlen, hidx⟩ := processRows_spec env qc t data 0 results hres
  refine ⟨results, hres, hlen, ?_⟩
  intro r hr
  obtain ⟨⟨j, hj'⟩, hget⟩ := List.mem_iff_get.mp hr
  have hj : j < data.length := by rw [← hlen]; exact hj'
  obtain ⟨entity, q, _, _, hrow⟩ := hidx j hj hj'
  rw [← hget, hrow]
  exact ⟨rowResult_lookup_error env (0 + j) entity q,
    by rw [rowResult_lookup_analysis]; rfl,
    by rw [rowResult_lookup_timestamp]; rfl⟩

/-- C2 witness: the amended theorem applied to a concrete one-row table in the
all-failing environment. -/
theorem component_failures_isolated_witness :
    data1.all (rowRenders "name" "q") = true ∧
    ∃ results, process_data envFail data1 "name" "q" = Except.ok results ∧
      results.length = data1.length ∧
      ∀ r ∈ results, r.lookup "error" = none ∧ (r.lookup "analysis").isSome = true ∧
        (r.lookup "timestamp").isSome = true :=
  ⟨rfl, component_failures_isolated envFail data1 "name" "q" rfl⟩

/-- C3 counterexample: in an environment whose every search attempt is a
transport failure, the failing row's record still HAS an `analysis` key and
has NO `error` field (shape `(true, false)`), contrary to the claim that it
has `error` set and no `analysis` key. -/
theorem search_failure_still_has_analysis :
    envFail.httpGet (searchRequest "Search Acme") = Except.error "offline" ∧
    shapesOf (process_data envFail [[("name", "Acme")]] "name" "Search \x7bentity\x7d") =
      Except.ok [(true, false)] :=
  ⟨rfl, rfl⟩

/-- C3 amended: if every search attempt for a row's query fails, `search_web`
returns the string "Search error: <cause>" instead of raising; the row's
record keeps its `analysis` key (the LLM output on that error text) and gets
no `error` field; and rows are processed independently — changing the search
transport only at the failing query leaves every other row's record
unchanged. -/
theorem search_failure_behavior (env env' : Env) (qbad e : String)
    (hfail : env.httpGet (searchRequest qbad) = Except.error e)
    (hup : ∀ req, req ≠ searchRequest qbad → env'.httpGet req = env.httpGet req)
    (hph : env'.parseHtml = env.parseHtml) (hc : env'.completion = env.completion)
    (hpj : env'.parseJson = env.parseJson) (hts : env'.timestamp = env.timestamp) :
    search_web env qbad 3 = "Search error: " ++ e ∧
    (∀ i entity, (rowResult env i entity qbad).lookup "error" = none ∧
      (rowResult env i entity qbad).lookup "analysis" =
        some (extract_info_with_llm env qbad ("Search error: " ++ e))) ∧
    (∀ i entity q, q ≠ qbad → rowResult env' i entity q = rowResult env i entity q) := by
  have hsw : search_web env qbad 3 = "Search error: " ++ e := by
    unfold search_web
    rw [hfail]
  refine ⟨hsw, ?_, ?_⟩
  · intro i entity
    refine ⟨rowResult_lookup_error env i entity qbad, ?_⟩
    rw [rowResult_lookup_analysis, hsw]
  · intro i entity q hne
    have hreq : searchRequest q ≠ searchRequest qbad := by
      intro hcontra
      exact hne (searchRequest_inj q qbad hcontra)
    have hsw2 : search_web env' q 3 = search_web env q 3 := by
      unfold search_web
      rw [hup _ hreq, hph]
    have hex : ∀ s, extract_info_with_llm env' q s = extract_info_with_llm env q s := by
      intro s
      unfold extract_info_with_llm
      rw [hc, hpj]
    rw [rowResult_eq, rowResult_eq, hsw2, hex, hts]

/-- C3 witness: the amended theorem applied in the all-failing environment. -/
theorem search_failure_behavior_witness :
    envFail.httpGet (searchRequest "qq") = Except.error "offline" ∧
    search_web envFail "qq" 3 = "Search error: " ++ "offline" :=
  ⟨rfl, (search_failure_behavior envFail envFail "qq" "offline" rfl
    (fun _ _ => rfl) rfl rfl rfl rfl).1⟩

/-- C4: whenever the completion step fails — the call errors, or its text does
not parse as JSON — `extract_info_with_llm` returns the sentinel record:
`error` set, `extracted_info` null, `key_points` the empty list,
`source_quality` "error", `confidence` "none".  (The function is total, so
nothing escapes its boundary.) -/
theorem extract_info_failure_sentinel (env : Env) (q r : String)
    (h : (∃ e, env.completion (chatRequestFor q r) = Except.error e) ∨
      (∃ c, env.completion (chatRequestFor q r) = Except.ok c ∧
        ∃ pe, env.parseJson c = Except.error pe)) :
    ∃ cause, extract_info_with_llm env q r = mkSentinel cause ∧
      (jsonLookup (extract_info_with_llm env q r) "error").isSome = true ∧
      jsonLookup (extract_info_with_llm env q r) "extracted_info" = some JsonVal.null ∧
      jsonLookup (extract_info_with_llm env q r) "key_points" = some (JsonVal.arr []) ∧
      jsonLookup (extract_info_with_llm env q r) "source_quality" =
        some (JsonVal.str "error") ∧
      jsonLookup (extract_info_with_llm env q r) "confidence" = some (JsonVal.str "none") := by
  have hmain : ∃ cause, extract_info_with_llm env q r = mkSentinel cause := by
    rcases h with ⟨e, he⟩ | ⟨c, hc, pe, hpe⟩
    · exact ⟨e, by unfold extract_info_with_llm; rw [he]⟩
    · refine ⟨pe, ?_⟩
      unfold extract_info_with_llm
      rw [hc]
      show (match env.parseJson c with
        | Except.error e => mkSentinel e
        | Except.ok v => v) = mkSentinel pe
      rw [hpe]
  obtain ⟨cause, hcause⟩ := hmain
  rw [hcause]
  exact ⟨cause, rfl, rfl, rfl, rfl, rfl, rfl⟩

/-- C4 witness: the theorem applied with a failing completion service. -/
theorem extract_info_failure_sentinel_witness :
    (∃ e, envFail.completion (chatRequestFor "q" "res") = Except.error e) ∧
    ∃ cause, extract_info_with_llm envFail "q" "res" = mkSentinel cause ∧
      (jsonLookup (extract_info_with_llm envFail "q" "res") "error").isSome = true ∧
      jsonLookup (extract_info_with_llm envFail "q" "res") "extracted_info" =
        some JsonVal.null ∧
      jsonLookup (extract_info_with_llm envFail "q" "res") "key_points" =
        some (JsonVal.arr []) ∧
      jsonLookup (extract_info_with_llm envFail "q" "res") "source_quality" =
        some (JsonVal.str "error") ∧
      jsonLookup (extract_info_with_llm envFail "q" "res") "confidence" =
        some (JsonVal.str "none") :=
  ⟨⟨"offline", rfl⟩,
    extract_info_failure_sentinel envFail "q" "res" (Or.inl ⟨"offline", rfl⟩)⟩

/-- C5 counterexample: `str.format` ignores unused keyword arguments, so a
template in which the `entity` placeholder is simply absent renders fine and
returns the template text — it does not fail. -/
theorem missing_placeholder_no_failure :
    pyFormat "News about" "Acme" = Except.ok "News about" := rfl

/-- C5 amended: template "News about {entity}" with entity "Acme" renders
exactly "News about Acme"; and a template in which the placeholder is absent
because the template contains no brace characters at all renders unchanged,
without any error — `str.format` ignores unused keyword arguments, so the
absence of the placeholder is not a failure. -/
theorem pyFormat_behavior :
    pyFormat "News about \x7bentity\x7d" "Acme" = Except.ok "News about Acme" ∧
    pyFormat "News about" "Acme" = Except.ok "News about" ∧
    (∀ template entity : String, template.data.all noBrace = true →
      pyFormat template entity = Except.ok template) := by
  refine ⟨rfl, rfl, ?_⟩
  intro template entity h
  show fmtScan entity template.data none = Except.ok template
  rw [fmtScan_no_braces entity template.data h]

/-- C5 witness: a further concrete brace-free template renders unchanged. -/
theorem pyFormat_behavior_witness :
    "News today".data.all noBrace = true ∧
    pyFormat "News today" "X" = Except.ok "News today" :=
  ⟨rfl, pyFormat_behavior.2.2 "News today" "X" rfl⟩

/-- C6 counterexample: when the completion service returns valid JSON carrying
only one of the five schema fields, `extract_info_with_llm` returns that
partial object verbatim — neither fully populated nor the error sentinel. -/
theorem unvalidated_object_passes_through :
    extract_info_with_llm envHalf "q" "r" =
      JsonVal.obj [("extracted_info", JsonVal.str "x")] ∧
    isFullShape (extract_info_with_llm envHalf "q" "r") = false ∧
    isErrorSentinelShape (extract_info_with_llm envHalf "q" "r") = false :=
  ⟨rfl, rfl, rfl⟩

/-- C6 amended: `extract_info_with_llm` either returns the error sentinel (which
does satisfy the sentinel shape) or returns the JSON value parsed from the
completion text verbatim, with no validation — the success value can have any
shape, including partially-populated objects and non-objects. -/
theorem extract_info_shape (env : Env) (q r : String) :
    (∃ cause, extract_info_with_llm env q r = mkSentinel cause ∧
      isErrorSentinelShape (mkSentinel cause) = true) ∨
    (∃ c, env.completion (chatRequestFor q r) = Except.ok c ∧
      env.parseJson c = Except.ok (extract_info_with_llm env q r)) := by
  cases hc : env.completion (chatRequestFor q r) with
  | error e =>
    refine Or.inl ⟨e, ?_, rfl⟩
    unfold extract_info_with_llm
    rw [hc]
  | ok content =>
    cases hp : env.parseJson content with
    | error e =>
      refine Or.inl ⟨e, ?_, rfl⟩
      unfold extract_info_with_llm
      rw [hc]
      show (match env.parseJson content with
        | Except.error e => mkSentinel e
        | Except.ok v => v) = mkSentinel e
      rw [hp]
    | ok v =>
      refine Or.inr ⟨content, rfl, ?_⟩
      unfold extract_info_with_llm
      rw [hc]
      show env.parseJson content = Except.ok (match env.parseJson content with
        | Except.error e => mkSentinel e
        | Except.ok v => v)
      rw [hp]

/-- C7: the result extractor never yields more than `limit` hits, and when no
result container matches the markup (empty or malformed pages included) it
yields the empty sequence — it is a total function, so it cannot fail. -/
theorem extractHits_bounded (env : Env) (markup : String) (limit : Nat) :
    (extractHits (env.parseHtml markup) limit).length ≤ limit ∧
    (env.parseHtml markup = [] → extractHits (env.parseHtml markup) limit = []) := by
  constructor
  · calc (extractHits (env.parseHtml markup) limit).length
        ≤ ((env.parseHtml markup).take limit).length := List.length_filterMap_le _ _
      _ ≤ limit := by rw [List.length_take]; exact Nat.min_le_left _ _
  · intro h
    rw [h]
    simp [extractHits]

/-- C7 witness: on markup that parses to no containers, the extractor yields
the empty sequence. -/
theorem extractHits_bounded_witness :
    envFail.parseHtml "<html>" = [] ∧ extractHits (envFail.parseHtml "<html>") 3 = [] :=
  ⟨rfl, (extractHits_bounded envFail "<html>" 3).2 rfl⟩

/-- C8 counterexample: the query is NOT URL-escaped — for the query "a b" the
request URL is the base plus the raw query (with a space), not the base plus
the percent-encoded query. -/
theorem url_not_percent_encoded :
    (searchRequest "a b").url = "https://html.duckduckgo.com/html/?q=a b" ∧
    searchUrlSpec "a b" = "https://html.duckduckgo.com/html/?q=a%20b" ∧
    (searchRequest "a b").url ≠ searchUrlSpec "a b" :=
  ⟨rfl, by decide, by decide⟩

/-- C8 amended: the web-search request URL is the fixed base with the query
appended verbatim (no URL-escaping — it coincides with the percent-encoded
form only when every query character is unreserved), and the request carries
the desktop-browser User-Agent header. -/
theorem searchRequest_spec (q : String) :
    (searchRequest q).url = searchBase ++ q ∧
    (searchRequest q).headers = [("User-Agent", userAgentString)] ∧
    (q.data.all isUnreserved = true → (searchRequest q).url = searchUrlSpec q) := by
  refine ⟨rfl, rfl, ?_⟩
  intro h
  show searchBase ++ q = searchBase ++ percentEncode q
  rw [percentEncode_eq_self q h]

/-- C8 witness: for an all-unreserved query the built URL agrees with the
percent-encoded form. -/
theorem searchRequest_spec_witness :
    "Acme".data.all isUnreserved = true ∧
    (searchRequest "Acme").url = searchUrlSpec "Acme" :=
  ⟨rfl, (searchRequest_spec "Acme").2.2 rfl⟩

/-- C9 counterexample: the summary view SKIPS a record that lacks `analysis`
(the row-level error case) instead of emitting an "N/A" row for it — one
input record, zero table rows. -/
theorem error_row_skipped_in_summary :
    summaryRowsAux
      [[("entity", JsonVal.str "Acme"), ("error", JsonVal.str "boom"),
        ("timestamp", JsonVal.str "t")]] = Except.ok [] ∧
    ([[("entity", JsonVal.str "Acme"), ("error", JsonVal.str "boom"),
      ("timestamp", JsonVal.str "t")]] : List Record).length = 1 :=
  ⟨rfl, rfl⟩

/-- C9 amended: the summary view emits one four-column row per EntityResult that
HAS an `analysis` key (records without it — the row-level error case — are
omitted, not rendered as "N/A" rows), substituting "N/A" wherever a field is
absent inside the analysis object. -/
theorem summary_projection (results : List Record) (h : results.all goodRec = true) :
    summaryRowsAux results = Except.ok (results.filterMap expectedSummaryRow) ∧
    (results.filterMap expectedSummaryRow).length =
      (results.filter recHasAnalysis).length := by
  induction results with
  | nil => exact ⟨rfl, rfl⟩
  | cons r rest ih =>
    rw [List.all_cons, Bool.and_eq_true] at h
    obtain ⟨h1, h2⟩ := h
    obtain ⟨ih1, ih2⟩ := ih h2
    unfold goodRec at h1
    split at h1
    · rename_i ha
      have hexp : expectedSummaryRow r = none := by
        unfold expectedSummaryRow
        rw [ha]
      have hsum : summaryRow r = Except.ok none := by
        unfold summaryRow
        rw [ha]
      have hfil : recHasAnalysis r = false := by
        unfold recHasAnalysis
        rw [ha]
        rfl
      constructor
      · unfold summaryRowsAux
        rw [hsum]
        simp only [List.filterMap_cons, hexp]
        exact ih1
      · simp only [List.filterMap_cons, hexp, List.filter_cons, hfil]
        simpa using ih2
    · rename_i a ha
      rw [Bool.and_eq_true] at h1
      obtain ⟨hent, hobj⟩ := h1
      cases he : r.lookup "entity" with
      | none => rw [he] at hent; exact absurd hent (by simp)
      | some ev =>
        obtain ⟨fields, rfl⟩ := isObjVal_eq a hobj
        have hexp : expectedSummaryRow r =
            some
              [("Entity", ev),
               ("Main Findings", dictGet fields "extracted_info" (JsonVal.str "N/A")),
               ("Confidence", dictGet fields "confidence" (JsonVal.str "N/A")),
               ("Source Quality", dictGet fields "source_quality" (JsonVal.str "N/A"))] := by
          unfold expectedSummaryRow
          rw [ha, he]
        have hsum : summaryRow r =
            Except.ok (some
              [("Entity", ev),
               ("Main Findings", dictGet fields "extracted_info" (JsonVal.str "N/A")),
               ("Confidence", dictGet fields "confidence" (JsonVal.str "N/A")),
               ("Source Quality", dictGet fields "source_quality" (JsonVal.str "N/A"))]) := by
          unfold summaryRow
          rw [ha, he]
        have hfil : recHasAnalysis r = true := by
          unfold recHasAnalysis
          rw [ha]
          rfl
        constructor
        · unfold summaryRowsAux
          rw [hsum, ih1]
          simp only [List.filterMap_cons, hexp]
        · simp only [List.filterMap_cons, hexp, List.filter_cons, hfil]
          simpa using ih2

/-- C9 witness: the amended theorem applied to a list with one analysed record
(whose analysis lacks most fields) and one row-level error record. -/
theorem summary_projection_witness :
    resultsMix.all goodRec = true ∧
    summaryRowsAux resultsMix = Except.ok (resultsMix.filterMap expectedSummaryRow) ∧
    (resultsMix.filterMap expectedSummaryRow).length =
      (resultsMix.filter recHasAnalysis).length :=
  ⟨rfl, summary_projection resultsMix rfl⟩

/-- C10: the per-row `try` body is built from internally-catching functions and
always returns a value (the `except` branch that would append an error record
without `analysis` is unreachable), so every record in a returned batch has
the keys `entity`, `search_query`, `analysis` and `timestamp`. -/
theorem process_data_records_well_formed (env : Env) (i : Nat) (entity q : String)
    (data : List Row) (qc t : String) (results : List Record)
    (h : process_data env data qc t = Except.ok results) :
    (∃ rec, rowBody env i entity q = Except.ok rec) ∧
    ∀ r ∈ results, (r.lookup "entity").isSome = true ∧
      (r.lookup "search_query").isSome = true ∧
      (r.lookup "analysis").isSome = true ∧ (r.lookup "timestamp").isSome = true := by
  refine ⟨⟨_, rfl⟩, ?_⟩
  obtain ⟨hlen, hidx⟩ := processRows_spec env qc t data 0 results h
  intro r hr
  obtain ⟨⟨j, hj'⟩, hget⟩ := List.mem_iff_get.mp hr
  have hj : j < data.length := by rw [← hlen]; exact hj'
  obtain ⟨e2, q2, _, _, hrow⟩ := hidx j hj hj'
  rw [← hget, hrow]
  exact ⟨by rw [rowResult_lookup_entity]; rfl,
    by rw [rowResult_lookup_query]; rfl,
    by rw [rowResult_lookup_analysis]; rfl,
    by rw [rowResult_lookup_timestamp]; rfl⟩

/-- C10 witness: a concrete batch whose single record reduces to the four-key
success record. -/
theorem process_data_records_well_formed_witness :
    process_data envFail data1 "name" "q" = Except.ok recs1 ∧
    (∃ rec, rowBody envFail 0 "A" "q" = Except.ok rec) :=
  ⟨rfl, (process_data_records_well_formed envFail 0 "A" "q" data1 "name" "q" recs1 rfl).1⟩
